import Mathlib

/-!
Shallow embedding of the checksum-manifest tool in `src/hashtool.py`
(classes `Filehash`, `GlobFilter`, `AbstractDirectoryCrawler`,
`HashGenerator`, `HashVerifier`, `UncheckedCrawler`).

Modelling conventions:
* Python strings are modelled as `List Char` (`Str`); text files are strings.
* The filesystem is a single association list from full paths to file
  contents (`Fs`); all entries are regular files.  `os.walk` output is
  passed in as data (a list of `(directory, filenames)` pairs), since the
  walk itself is environment input.
* Hash digests are abstracted by a function parameter `DigestFn`
  (algorithm name and file content to hex digest); the embedding keeps the
  control flow of `_hash_factory` / `Filehash` (the factory runs before the
  file is opened) but not the arithmetic of the digests themselves.
* Python exceptions are modelled with `Except`.
* POSIX platform is assumed: `os.linesep = "\n"`, `os.path.normcase` is the
  identity, `os.path.join a b = a ++ "/" ++ b` for the relative names that
  occur here.
-/

/-- Python strings, modelled as lists of characters. -/
abbrev Str := List Char

/-- Coerce a Lean string literal into the model's string type. -/
def str (s : String) : Str := s.data

/-- Characters removed by Python's `str.strip()`: the code points for
which `str.isspace()` holds (CPython's `Py_UNICODE_ISSPACE`): the ASCII
whitespace U+0009-U+000D and U+0020, the separators U+001C-U+001F, NEL
U+0085, NBSP U+00A0, OGHAM SPACE U+1680, the Unicode space separators
U+2000-U+200A, U+202F, U+205F and U+3000, and the line/paragraph
separators U+2028 and U+2029. -/
def isPySpace (c : Char) : Bool :=
  (decide (9 ≤ c.toNat) && decide (c.toNat ≤ 13)) ||
  (decide (28 ≤ c.toNat) && decide (c.toNat ≤ 31)) ||
  decide (c.toNat = 32) || decide (c.toNat = 133) || decide (c.toNat = 160) ||
  decide (c.toNat = 5760) ||
  (decide (8192 ≤ c.toNat) && decide (c.toNat ≤ 8202)) ||
  decide (c.toNat = 8232) || decide (c.toNat = 8233) || decide (c.toNat = 8239) ||
  decide (c.toNat = 8287) || decide (c.toNat = 12288)

/-- `str.lower()` restricted to ASCII, which covers every string the tool
compares case-insensitively (hex digests and algorithm names). -/
def pyLower (s : Str) : Str := s.map Char.toLower

/-- Remove trailing whitespace (the right half of `str.strip()`). -/
def pyStripRight (s : Str) : Str := (s.reverse.dropWhile isPySpace).reverse

/-- Python's `str.strip()`: remove leading and trailing whitespace. -/
def pyStrip (s : Str) : Str := pyStripRight (s.dropWhile isPySpace)

/-- `line.startswith('#')`. -/
def startsWithHash : Str → Bool
  | [] => false
  | c :: _ => c == '#'

/-- Helper for `str.partition`: find the first occurrence of `sep` and
return the text before and after it, or `none` when `sep` does not occur. -/
def pyPartitionAux (sep : Str) : Str → Option (Str × Str)
  | [] => none
  | c :: cs =>
    if sep.isPrefixOf (c :: cs) then some ([], (c :: cs).drop sep.length)
    else
      match pyPartitionAux sep cs with
      | some (pre, post) => some (c :: pre, post)
      | none => none

/-- Python's `s.partition(sep)`: `(before, sep, after)` at the first
occurrence of `sep`, and `(s, "", "")` when `sep` does not occur. -/
def pyPartition (s sep : Str) : Str × Str × Str :=
  match pyPartitionAux sep s with
  | some (pre, post) => (pre, sep, post)
  | none => (s, [], [])

/-- Split a string into lines at newlines, with Python's universal-newline
translation (`\r\n` and lone `\r` also end a line).  A trailing newline
produces a final empty component, removed again by `pyFileLines`. -/
def splitLines : Str → List Str
  | [] => [[]]
  | '\n' :: rest => [] :: splitLines rest
  | '\r' :: '\n' :: rest => [] :: splitLines rest
  | '\r' :: rest => [] :: splitLines rest
  | c :: rest =>
    match splitLines rest with
    | l :: ls => (c :: l) :: ls
    | [] => [c] :: []

/-- The sequence of lines produced by iterating over a text file in Python
(`for line in file`), with the line terminators already removed (the tool
strips every line anyway, so dropping the terminator here is harmless). -/
def pyFileLines (s : Str) : List Str :=
  let ls := splitLines s
  match ls.getLast? with
  | some [] => ls.dropLast
  | _ => ls

/-- Concatenation of the images of `f`, used to build file contents. -/
def concatMapStr {α : Type} (f : α → Str) : List α → Str
  | [] => []
  | a :: as => f a ++ concatMapStr f as

/-- `os.path.join` for a directory and a relative name (POSIX). -/
def pathJoin (dir file : Str) : Str := dir ++ '/' :: file

/-- `os.path.relpath path start` for paths lying under `start`, the only
case the generator produces. -/
def relpathUnder (path start : Str) : Str :=
  if (start ++ ['/']).isPrefixOf path then path.drop (start.length + 1) else path

/-- `os.path.basename` (POSIX): the part after the last slash. -/
def basename (p : Str) : Str := (p.reverse.takeWhile (fun c => !(c == '/'))).reverse

/-! ### `fnmatch` (Python standard library)

`fnmatch.fnmatch(name, pattern)` translates the shell glob `pattern`
(`*`, `?`, `[...]`, `[!...]`, with a `]` directly after the opening
bracket taken literally and an unclosed `[` treated as a literal
character) into a regular expression and matches `name` against it.
On POSIX `os.path.normcase` is the identity, so no case folding happens.
The pattern is compiled to a token list and matched; both functions use
explicit fuel so that they are structurally recursive and evaluate by
kernel reduction, with fuel bounds that are never exhausted (each step
consumes at least one character of pattern or input). -/

/-- One compiled element of a glob pattern. -/
inductive GlobToken : Type
  | star : GlobToken
  | any : GlobToken
  | lit : Char → GlobToken
  | cls : Bool → List Char → GlobToken
deriving DecidableEq

/-- Does character `c` match the (non-negated) bracket set `set`?  A run
`a-b` inside the set denotes the inclusive character range from `a` to
`b`, as in the regular expression class `fnmatch.translate` emits. -/
def inBracket : List Char → Char → Bool
  | [], _ => false
  | a :: '-' :: b :: rest, c => (decide (a ≤ c) && decide (c ≤ b)) || inBracket rest c
  | a :: rest, c => (a == c) || inBracket rest c

/-- Scan a bracket expression body up to the closing `]`; `none` when the
bracket is never closed. -/
def takeSet : List Char → Option (List Char × List Char)
  | [] => none
  | ']' :: rest => some ([], rest)
  | c :: rest =>
    match takeSet rest with
    | some (set, r) => some (c :: set, r)
    | none => none

/-- Parse the remainder of a pattern after an opening `[`: an optional `!`
negation, a `]` immediately after it taken literally, then the set body.
Returns `(negated, set, rest-of-pattern)`, or `none` for an unclosed
bracket (which `fnmatch` treats as a literal `[`). -/
def parseBracket (ps : List Char) : Option (Bool × List Char × List Char) :=
  match ps with
  | '!' :: ']' :: rest =>
    match takeSet rest with
    | some (set, r) => some (true, ']' :: set, r)
    | none => none
  | '!' :: rest =>
    match takeSet rest with
    | some (set, r) => some (true, set, r)
    | none => none
  | ']' :: rest =>
    match takeSet rest with
    | some (set, r) => some (false, ']' :: set, r)
    | none => none
  | rest =>
    match takeSet rest with
    | some (set, r) => some (false, set, r)
    | none => none

/-- Compile a glob pattern into tokens.  The fuel argument dominates the
pattern length, so the `0` case is never reached from `compileGlob`. -/
def compileGlobFuel : Nat → List Char → List GlobToken
  | 0, _ => []
  | _ + 1, [] => []
  | f + 1, '*' :: ps => .star :: compileGlobFuel f ps
  | f + 1, '?' :: ps => .any :: compileGlobFuel f ps
  | f + 1, '[' :: ps =>
    match parseBracket ps with
    | some (neg, set, rest) => .cls neg set :: compileGlobFuel f rest
    | none => .lit '[' :: compileGlobFuel f ps
  | f + 1, c :: ps => .lit c :: compileGlobFuel f ps

/-- Compile a glob pattern into tokens. -/
def compileGlob (pattern : Str) : List GlobToken :=
  compileGlobFuel pattern.length pattern

/-- Match a compiled pattern against a string.  The fuel dominates the sum
of the remaining pattern and string lengths, so the `0` case is never
reached from `globMatch`. -/
def globMatchFuel : Nat → List GlobToken → Str → Bool
  | 0, _, _ => false
  | _ + 1, [], [] => true
  | _ + 1, [], _ :: _ => false
  | f + 1, .star :: ts, [] => globMatchFuel f ts []
  | f + 1, .star :: ts, c :: cs =>
    globMatchFuel f ts (c :: cs) || globMatchFuel f (.star :: ts) cs
  | _ + 1, .any :: _, [] => false
  | f + 1, .any :: ts, _ :: cs => globMatchFuel f ts cs
  | _ + 1, .lit _ :: _, [] => false
  | f + 1, .lit a :: ts, c :: cs => (a == c) && globMatchFuel f ts cs
  | _ + 1, .cls _ _ :: _, [] => false
  | f + 1, .cls neg set :: ts, c :: cs =>
    (if neg then !(inBracket set c) else inBracket set c) && globMatchFuel f ts cs

/-- Match a compiled pattern against a string. -/
def globMatch (ts : List GlobToken) (s : Str) : Bool :=
  globMatchFuel (ts.length + s.length + 1) ts s

/-- `fnmatch.fnmatch(name, pattern)` on POSIX. -/
def fnmatch (name pattern : Str) : Bool := globMatch (compileGlob pattern) name

/-! ### `GlobFilter` (source lines 126-153) -/

/-- The state of a `GlobFilter` object (source lines 129-132). -/
structure GlobFilter : Type where
  includeGlobs : List Str
  excludeGlobs : List Str

/-- One of the two `for glob in ...: if fnmatch.fnmatch(string, glob):
return ...` loops of `GlobFilter.__call__`: true as soon as some glob in
the list matches, false when the loop falls through. -/
def matchLoop (s : Str) : List Str → Bool
  | [] => false
  | g :: gs => if fnmatch s g then true else matchLoop s gs

/-- `GlobFilter.__call__` (source lines 134-149): the exclude loop returns
`False` on the first match; `if not self.include: return True`; the
include loop returns `True` on the first match, else `False`. -/
def GlobFilter.call (f : GlobFilter) (s : Str) : Bool :=
  if matchLoop s f.excludeGlobs then false
  else if f.includeGlobs = [] then true
  else matchLoop s f.includeGlobs

/-- The reference description of the filter from the specification:
exclude globs first (any match excludes), empty include list means
match-all, otherwise some include glob must match. -/
def globFilterSpec (includeGlobs excludeGlobs : List Str) (name : Str) : Bool :=
  if excludeGlobs.any (fun g => fnmatch name g) then false
  else if includeGlobs = [] then true
  else includeGlobs.any (fun g => fnmatch name g)

/-! ### Filesystem model -/

/-- A filesystem: full path to file content, first match wins. -/
abbrev Fs := List (Str × Str)

/-- Look up the content of a file. -/
def fsLookup : Fs → Str → Option Str
  | [], _ => none
  | (p, c) :: rest, q => if p = q then some c else fsLookup rest q

/-- Remove a path from the filesystem. -/
def fsErase : Fs → Str → Fs
  | [], _ => []
  | (p, c) :: rest, q => if p = q then fsErase rest q else (p, c) :: fsErase rest q

/-- Create or overwrite a file (`open(path, 'w')` followed by writes). -/
def fsWrite (fs : Fs) (p c : Str) : Fs := fsErase fs p ++ [(p, c)]

/-- `os.rename old new` (POSIX: silently replaces an existing `new`).
The call sites guard on existence, so the missing-`old` case never
triggers an exception here. -/
def fsRename (fs : Fs) (old new : Str) : Fs :=
  match fsLookup fs old with
  | some c => fsWrite (fsErase fs old) new c
  | none => fs

/-- `os.listdir dir` restricted to regular files, as names relative to
`dir` (the model's filesystem holds only regular files, so the
`os.path.isfile` filter at source line 283 is the identity here). -/
def listdirNames (fs : Fs) (dir : Str) : List Str :=
  fs.filterMap (fun e =>
    if (dir ++ ['/']).isPrefixOf e.1 && !((e.1.drop (dir.length + 1)).contains '/')
    then some (e.1.drop (dir.length + 1)) else none)

/-! ### Digest engine (source lines 62-123) -/

/-- Errors raised by the digest engine: `hashlib.new` raises `ValueError`
for an unrecognized algorithm name ("UnsupportedAlgorithm" in the
specification), and `open` raises `FileNotFoundError` for a missing file. -/
inductive HashError : Type
  | unsupportedAlgorithm : Str → HashError
  | fileNotFound : Str → HashError
deriving DecidableEq

/-- Abstract digest computation: algorithm name and file content to hex
digest string.  The chunked read loop of `Filehash.__init__` feeds the
whole file content into the hash object in `block_size` pieces, so its
observable result is a function of the full content. -/
abbrev DigestFn := Str → Str → Str

/-- The algorithm names accepted by the local `hashlib` module
(`hashlib.algorithms_guaranteed`). -/
def hashlibAlgorithms : List Str :=
  [str "md5", str "sha1", str "sha224", str "sha256", str "sha384",
   str "sha512", str "sha3_224", str "sha3_256", str "sha3_384",
   str "sha3_512", str "shake_128", str "shake_256", str "blake2b",
   str "blake2s"]

/-- Does `_hash_factory` (source lines 92-97) succeed for this name?
`hashtype.lower() == "crc32"` selects the CRC32 object, otherwise
`hashlib.new(hashtype)` must recognize the name. -/
def hashFactorySupported (hashtype : Str) : Bool :=
  pyLower hashtype = str "crc32" || hashlibAlgorithms.contains hashtype

/-- `Filehash(hashtype, filename).hexdigest()` (source lines 107-119):
`_hash_factory(hashtype)` runs first — before the file is opened — so an
unrecognized algorithm fails independently of the filesystem; then the
file is opened and read in blocks. -/
def Filehash.hexdigest (d : DigestFn) (hashtype filename : Str) (fs : Fs) :
    Except HashError Str :=
  if hashFactorySupported hashtype then
    match fsLookup fs filename with
    | some content => .ok (d hashtype content)
    | none => .error (.fileNotFound filename)
  else .error (.unsupportedAlgorithm hashtype)

/-! ### Manifest codec (source lines 164-195, `AbstractDirectoryCrawler`) -/

/-- The fixed text before the timestamp in the generated comment line. -/
def headerPrefix : Str := str "# Generated on "

/-- One manifest line for an entry `(filepath, hash)`:
`"{0} *{1}".format(hash, filepath)` (source line 175). -/
def checksumLine (e : Str × Str) : Str := e.2 ++ ' ' :: '*' :: e.1

/-- The full content written by `_write_checksum_file` (source lines
164-175): a timestamp comment, then one line per entry, each line
terminated by `os.linesep` (`"\n"` on POSIX).  `ts` stands for the
`time.strftime("%Y-%m-%d %H:%M:%S")` result. -/
def checksumFileContent (ts : Str) (hashinfo : List (Str × Str)) : Str :=
  ((headerPrefix ++ ts) ++ ['\n']) ++ concatMapStr (fun e => checksumLine e ++ ['\n']) hashinfo

/-- Parse one line of a checksum file (the body of the `for line in file`
loop of `_read_checksum_file`, source lines 186-194): strip, skip `#`
comments, `partition(' *')`, fall back to `partition(' ')` when the hash
part is empty, and keep the entry only when both parts are non-empty. -/
def parseChecksumLine (line : Str) : Option (Str × Str) :=
  let line := pyStrip line
  if startsWithHash line then none
  else
    let p1 := pyPartition line [' ', '*']
    let hp :=
      if p1.1 = [] then
        let p2 := pyPartition line [' ']
        (p2.1, p2.2.2)
      else (p1.1, p1.2.2)
    if hp.1 ≠ [] ∧ hp.2 ≠ [] then some (hp.2, hp.1) else none

/-- `_read_checksum_file` (source lines 177-195) applied to the content of
a checksum file: the entries `(filepath, hash)` appended in line order. -/
def readChecksumContent (content : Str) : List (Str × Str) :=
  (pyFileLines content).foldl
    (fun acc line =>
      match parseChecksumLine line with
      | some e => acc ++ [e]
      | none => acc) []

/-! ### `HashGenerator` (source lines 203-317) -/

/-- The state of a `HashGenerator` object after `__init__`. -/
structure HashGenerator : Type where
  hashtype : Str
  recursive : Bool
  basedirOnly : Bool
  overwrite : List Str
  backup : Bool
  includeGlobs : List Str
  excludeGlobs : List Str
  filename : Str

/-- `HashGenerator.__init__` (source lines 248-263).  Keyword arguments
left at their defaults are passed as `none`/the default value: the source
defaults are `recursive=False, basedir_only=False, filename=None,
overwrite=[], backup=False, include=[], exclude=[]`.  `if filename:` is
false for both `None` and the empty string, in which case the name
`"checksums" + "." + hashtype` is used. -/
def HashGenerator.init (hashtype : Str) (recursive basedirOnly : Bool)
    (filename : Option Str) (overwrite : List Str) (backup : Option Bool)
    (includeGlobs excludeGlobs : List Str) : HashGenerator :=
  { hashtype, recursive, basedirOnly, overwrite,
    backup := backup.getD false,
    includeGlobs, excludeGlobs,
    filename :=
      match filename with
      | some f => if f = [] then (str "checksums" ++ str ".") ++ hashtype else f
      | none => (str "checksums" ++ str ".") ++ hashtype }

/-- The `files_to_write` computation of `_write_hashinfo` (source lines
279-286): for each overwrite glob, the matching regular files of the
directory listing, in listing order; if nothing matched (or no glob is
configured), the single configured `filename`. -/
def filesToWrite (gen : HashGenerator) (fs : Fs) (dir : Str) : List Str :=
  let listing := listdirNames fs dir
  let matched := gen.overwrite.foldl
    (fun acc g => acc ++ listing.filter (fun name => fnmatch name g)) []
  if matched = [] then [gen.filename] else matched

/-- The body of the `for file in files_to_write` loop of `_write_hashinfo`
(source lines 288-293): back up an existing target by renaming it to
`<target>.bak` when `backup` is enabled, then write the checksum file. -/
def writeHashinfoStep (gen : HashGenerator) (ts dir : Str)
    (hashinfo : List (Str × Str)) (fs : Fs) (file : Str) : Fs :=
  let filepath := pathJoin dir file
  let fs1 := if (fsLookup fs filepath).isSome && gen.backup
             then fsRename fs filepath (filepath ++ str ".bak") else fs
  fsWrite fs1 filepath (checksumFileContent ts hashinfo)

/-- `HashGenerator._write_hashinfo` (source lines 265-293). -/
def writeHashinfo (gen : HashGenerator) (ts : Str) (fs : Fs) (dir : Str)
    (hashinfo : List (Str × Str)) : Fs :=
  (filesToWrite gen fs dir).foldl (writeHashinfoStep gen ts dir hashinfo) fs

/-- The inner `for file in filter(globfilter, subfiles)` loop of
`HashGenerator.process_directory` (source lines 307-313), producing the
`dir_hashes` and `tree_hashes` contributions of one directory.  Source
line 309 constructs `Filehash(filepath, self.hashtype)`: the file path is
passed in the first (algorithm) position and the algorithm in the second
(file name) position, and that order is reproduced here. -/
def genDirFiles (d : DigestFn) (gen : HashGenerator) (gf : GlobFilter)
    (fs : Fs) (root dir : Str) :
    List Str → Except HashError (List (Str × Str) × List (Str × Str))
  | [] => .ok ([], [])
  | file :: rest =>
    if gf.call file then
      let filepath := pathJoin dir file
      match Filehash.hexdigest d filepath gen.hashtype fs with
      | .error e => .error e
      | .ok h =>
        match genDirFiles d gen gf fs root dir rest with
        | .error e => .error e
        | .ok (dh, th) =>
          .ok ((file, h) :: dh, (relpathUnder filepath root, h) :: th)
    else genDirFiles d gen gf fs root dir rest

/-- The outer `for dir, subdirs, subfiles in dirtree` loop of
`HashGenerator.process_directory` (source lines 304-315), threading the
filesystem through the per-directory writes and accumulating
`tree_hashes`. -/
def genWalk (d : DigestFn) (gen : HashGenerator) (gf : GlobFilter)
    (ts root : Str) :
    List (Str × List Str) → Fs → Except HashError (Fs × List (Str × Str))
  | [], fs => .ok (fs, [])
  | (dir, subfiles) :: rest, fs =>
    match genDirFiles d gen gf fs root dir subfiles with
    | .error e => .error e
    | .ok (dh, th) =>
      let fs2 := if dh ≠ [] ∧ ¬gen.basedirOnly
                 then writeHashinfo gen ts fs dir dh else fs
      match genWalk d gen gf ts root rest fs2 with
      | .error e => .error e
      | .ok (fs3, thRest) => .ok (fs3, th ++ thRest)

/-- `HashGenerator.process_directory` (source lines 296-317).  `dirtree`
is the `os.walk(root, topdown=True)` output as data; when `recursive` is
off only its first element is consumed (source lines 299-300). -/
def HashGenerator.processDirectory (d : DigestFn) (gen : HashGenerator)
    (ts root : Str) (dirtree : List (Str × List Str)) (fs : Fs) :
    Except HashError Fs :=
  let tree := if gen.recursive then dirtree else dirtree.take 1
  let gf : GlobFilter := ⟨gen.includeGlobs, gen.excludeGlobs⟩
  match genWalk d gen gf ts root tree fs with
  | .error e => .error e
  | .ok (fs2, th) =>
    .ok (if th ≠ [] ∧ gen.basedirOnly then writeHashinfo gen ts fs2 root th else fs2)

/-! ### `HashVerifier` (source lines 320-399) -/

/-- The state of a `HashVerifier` object after `__init__`. -/
structure HashVerifier : Type where
  hashtype : Str
  recursive : Bool
  filenames : List Str
  includeGlobs : List Str
  excludeGlobs : List Str

/-- `HashVerifier.__init__` (source lines 352-363): `if filenames:` is
false for the default empty list, in which case the single glob
`"*." + hashtype` is used. -/
def HashVerifier.init (hashtype : Str) (recursive : Bool)
    (filenames includeGlobs excludeGlobs : List Str) : HashVerifier :=
  { hashtype, recursive, includeGlobs, excludeGlobs,
    filenames := if filenames = [] then [str "*." ++ hashtype] else filenames }

/-- The per-entry outcomes logged by `HashVerifier.process_directory`:
`[SKIPPED]`, `[MISSING]`, `[INVALID]`, `[OK]` (source lines 384, 388,
393, 395). -/
inductive VerifyEvent : Type
  | skipped : Str → VerifyEvent
  | missing : Str → VerifyEvent
  | invalid : Str → VerifyEvent
  | passed : Str → VerifyEvent
deriving DecidableEq

/-- The `for fn, hash in hashinfo` loop of `HashVerifier.process_directory`
(source lines 380-395): the events in entry order, together with the final
`file_ok` flag.  The stored digest read from the manifest is bound but
never used: source line 390 rebinds `hash` to
`Filehash(fnpath, self.hashtype).hexdigest()` (the file path in the first,
algorithm, position — the constructor's argument order reproduced here),
and source line 391 then tests `hash.lower() != hash.lower()`, comparing
the freshly computed digest with itself. -/
def verifyEntries (d : DigestFn) (v : HashVerifier) (gf : GlobFilter)
    (fs : Fs) (dir : Str) :
    List (Str × Str) → Except HashError (List VerifyEvent × Bool)
  | [] => .ok ([], true)
  | (fn, _storedHash) :: rest =>
    let fnpath := pathJoin dir fn
    if !(gf.call (basename fn)) then
      match verifyEntries d v gf fs dir rest with
      | .error e => .error e
      | .ok (evs, fok) => .ok (.skipped fnpath :: evs, fok)
    else if fsLookup fs fnpath = none then
      match verifyEntries d v gf fs dir rest with
      | .error e => .error e
      | .ok (evs, _) => .ok (.missing fnpath :: evs, false)
    else
      match Filehash.hexdigest d fnpath v.hashtype fs with
      | .error e => .error e
      | .ok h =>
        if pyLower h ≠ pyLower h then
          match verifyEntries d v gf fs dir rest with
          | .error e => .error e
          | .ok (evs, _) => .ok (.invalid fnpath :: evs, false)
        else
          match verifyEntries d v gf fs dir rest with
          | .error e => .error e
          | .ok (evs, fok) => .ok (.passed fnpath :: evs, fok)

/-- The `for file in filter(checksum_file_filter, subfiles)` loop of
`HashVerifier.process_directory` (source lines 374-399): for each checksum
file, parse it and verify its entries, producing the manifest path, the
per-entry events and the `file_ok` flag (`true` is reported as `OK`,
`false` as `ERROR!`, source lines 396-399). -/
def verifyDir (d : DigestFn) (v : HashVerifier) (gf cff : GlobFilter)
    (fs : Fs) (dir : Str) :
    List Str → Except HashError (List (Str × List VerifyEvent × Bool))
  | [] => .ok []
  | file :: rest =>
    if cff.call file then
      let filepath := pathJoin dir file
      match fsLookup fs filepath with
      | none => .error (.fileNotFound filepath)
      | some content =>
        match verifyEntries d v gf fs dir (readChecksumContent content) with
        | .error e => .error e
        | .ok (evs, fok) =>
          match verifyDir d v gf cff fs dir rest with
          | .error e => .error e
          | .ok reports => .ok ((filepath, evs, fok) :: reports)
    else verifyDir d v gf cff fs dir rest

/-- The outer directory loop of `HashVerifier.process_directory` (source
line 372). -/
def verifyWalk (d : DigestFn) (v : HashVerifier) (gf cff : GlobFilter)
    (fs : Fs) :
    List (Str × List Str) → Except HashError (List (Str × List VerifyEvent × Bool))
  | [] => .ok []
  | (dir, subfiles) :: rest =>
    match verifyDir d v gf cff fs dir subfiles with
    | .error e => .error e
    | .ok reports =>
      match verifyWalk d v gf cff fs rest with
      | .error e => .error e
      | .ok more => .ok (reports ++ more)

/-- `HashVerifier.process_directory` (source lines 365-399).  `dirtree` is
the `os.walk` output as data; `checksum_file_filter` is
`GlobFilter(include=self.filenames)` with no excludes (source line 371). -/
def HashVerifier.processDirectory (d : DigestFn) (v : HashVerifier)
    (dirtree : List (Str × List Str)) (fs : Fs) :
    Except HashError (List (Str × List VerifyEvent × Bool)) :=
  let tree := if v.recursive then dirtree else dirtree.take 1
  let gf : GlobFilter := ⟨v.includeGlobs, v.excludeGlobs⟩
  let cff : GlobFilter := ⟨v.filenames, []⟩
  verifyWalk d v gf cff fs tree

/-! ### `UncheckedCrawler` (source lines 402-460) -/

/-- The state an `UncheckedCrawler` object would have after a successful
`__init__`. -/
structure UncheckedCrawler : Type where
  recursive : Bool
  filenames : List Str
  includeGlobs : Option (List Str)
  excludeGlobs : Option (List Str)

/-- Python runtime errors raised by referencing names that do not exist. -/
inductive PyError : Type
  | nameError : String → PyError
  | attributeError : String → PyError
deriving DecidableEq

/-- `UncheckedCrawler.__init__` (source lines 430-438).  After the
superclass call and `self.recursive = recursive`, source line 437 executes
`self.filenames = filename` — but the parameter is named `filenames` and
no name `filename` is in scope, so the constructor raises
`NameError: name 'filename' is not defined` and no object is produced.
(`process_directory` additionally references the undefined attribute
`self._read_hashfile` at line 453 and the undefined name `treehashinfo`
at line 459, so it could not run either.) -/
def UncheckedCrawler.init (filenames : List Str) (recursive : Bool)
    (includeGlobs excludeGlobs : Option (List Str)) :
    Except PyError UncheckedCrawler :=
  .error (.nameError "filename")

/-- Hexadecimal digit characters, the alphabet of the digests the claims
quantify over. -/
def isHexDigit (c : Char) : Bool :=
  (decide (48 ≤ c.toNat) && decide (c.toNat ≤ 57)) ||
  (decide (97 ≤ c.toNat) && decide (c.toNat ≤ 102)) ||
  (decide (65 ≤ c.toNat) && decide (c.toNat ≤ 70))

/-! ### Supporting lemmas -/

theorem matchLoop_eq_any (s : Str) (gs : List Str) :
    matchLoop s gs = gs.any (fun g => fnmatch s g) := by
  induction gs with
  | nil => rfl
  | cons g gs ih => by_cases h : fnmatch s g <;> simp [matchLoop, h, ih]

theorem hexdigest_unsupported (d : DigestFn) (name filename : Str) (fs : Fs)
    (h : hashFactorySupported name = false) :
    Filehash.hexdigest d name filename fs = .error (.unsupportedAlgorithm name) := by
  simp [Filehash.hexdigest, h]

/-! ### Claim theorems -/

/-- C1: the claim states that generating a manifest and then verifying it
with the same algorithm reports zero MISSING and zero INVALID entries.
The code cannot generate a manifest at all: source line 309 calls
`Filehash(filepath, self.hashtype)` although `Filehash.__init__` is
declared as `(self, hashtype, filename)`, so the file path is used as the
algorithm name and `hashlib.new` raises `ValueError` on the first file.
This theorem evaluates the embedded generator at the failing input
(algorithm `md5`, a directory `d` holding one file `a.txt`, empty
include/exclude lists): the run aborts with an unsupported-algorithm
error naming the file path, and no manifest is written. -/
theorem C1_generator_swapped_args :
    HashGenerator.processDirectory (fun _ _ => [])
      (HashGenerator.init (str "md5") false false none [] none [] [])
      (str "ts") (str "d") [(str "d", [str "a.txt"])]
      [(str "d/a.txt", str "hello")]
    = .error (.unsupportedAlgorithm (str "d/a.txt")) := by rfl

/-- C2: the claim states that verifying a manifest entry whose stored
digest differs from the recomputed digest records exactly one INVALID
entry and reports the manifest as ERROR.  The code cannot reach the
comparison: source line 390 calls `Filehash(fnpath, self.hashtype)` with
the same swapped argument order as the generator, so verification aborts
with an unsupported-algorithm error naming the file path; and even with
the arguments fixed, source line 391 tests `hash.lower() != hash.lower()`
— the freshly computed digest against itself (the stored digest was
shadowed at line 390) — which can never be true, so INVALID could never be
recorded.  This theorem evaluates the embedded verifier at the failing
input (manifest `checksums.md5` listing `a.txt` with a stale digest,
`a.txt` present with different content). -/
theorem C2_verifier_swapped_args :
    HashVerifier.processDirectory (fun _ _ => [])
      (HashVerifier.init (str "md5") false [] [] [])
      [(str "d", [str "a.txt", str "checksums.md5"])]
      [(str "d/a.txt", str "xx"), (str "d/checksums.md5", str "deadbeef *a.txt\n")]
    = .error (.unsupportedAlgorithm (str "d/a.txt")) := by rfl

/-- C4: the claim states that a loose line `"<hash> <path>"` (single
space, no `" *"` sequence) is parsed by the single-space fallback into the
entry `(path, hash)`.  In the code the fallback is dead: when `' *'` does
not occur, `str.partition` returns the whole line as the head, so `hash`
is the entire non-empty line, the guard `if not hash:` is false, the
fallback never runs, and `filepath` stays empty, so the line contributes
nothing.  This theorem evaluates the embedded parser at the failing input
`"abc def"`: the partition head is the whole line and the checksum file
consisting of that line yields no entries. -/
theorem C4_loose_line_ignored :
    pyPartition (str "abc def") [' ', '*'] = (str "abc def", [], []) ∧
    readChecksumContent (str "abc def\n") = [] := by
  constructor <;> rfl

/-- C5: `GlobFilter.__call__` equals the reference definition from the
specification: false if any exclude glob matches, otherwise true if the
include list is empty, otherwise true iff some include glob matches. -/
theorem C5_globfilter_matches_spec (includeGlobs excludeGlobs : List Str) (name : Str) :
    GlobFilter.call ⟨includeGlobs, excludeGlobs⟩ name
    = globFilterSpec includeGlobs excludeGlobs name := by
  simp only [GlobFilter.call, globFilterSpec, matchLoop_eq_any]

/-- C6 counterexample: the claim states that a `HashGenerator` constructed
without an explicit backup option has `backup = true`; constructing one
with every keyword argument left at its default gives `backup = false`
(source line 250 declares the default `backup=False`, and the class
docstring at line 230 agrees: "Defaults to False"). -/
theorem C6_counterexample :
    ¬ (HashGenerator.init (str "md5") false false none [] none [] []).backup = true := by
  decide

/-- C6 amended: a `HashGenerator` constructed without an explicit backup
option has `backup = false`, whatever the other arguments are. -/
theorem C6_backup_default_false (hashtype : Str) (recursive basedirOnly : Bool)
    (filename : Option Str) (overwrite : List Str)
    (includeGlobs excludeGlobs : List Str) :
    (HashGenerator.init hashtype recursive basedirOnly filename overwrite
      none includeGlobs excludeGlobs).backup = false := rfl

/-- C8: the claim states that `UncheckedCrawler.process_directory` on a
directory `{a.txt, b.txt, c.txt}` with a manifest referencing `a.txt` and
`b.txt` reports exactly `c.txt` as UNCHECKED.  No `UncheckedCrawler` can
be constructed: source line 437 assigns `self.filenames = filename`, but
the parameter is named `filenames` and no `filename` exists, so
`__init__` raises `NameError` (and `process_directory` itself references
the undefined `self._read_hashfile` and `treehashinfo`).  This theorem
evaluates the embedded constructor at the failing input. -/
theorem C8_init_name_error :
    UncheckedCrawler.init [str "checksums.*"] false none none
    = .error (.nameError "filename") := rfl

/-- C9: for every algorithm name that `_hash_factory` does not recognize,
computing a file digest fails with the unsupported-algorithm error, for
every digest function, file name and filesystem — in particular also on a
filesystem where the file does not exist, which shows the failure happens
before the file would be opened (a missing file would otherwise report
`fileNotFound`). -/
theorem C9_unsupported_before_io (name : Str)
    (h : hashFactorySupported name = false) (d : DigestFn) (filename : Str)
    (fs : Fs) :
    Filehash.hexdigest d name filename fs = .error (.unsupportedAlgorithm name) :=
  hexdigest_unsupported d name filename fs h

/-- C9 witness: the name `foo` is unsupported and digesting with it fails
with the unsupported-algorithm error on the empty filesystem. -/
theorem C9_unsupported_before_io_witness :
    hashFactorySupported (str "foo") = false ∧
    Filehash.hexdigest (fun _ _ => []) (str "foo") (str "a.txt") []
      = .error (.unsupportedAlgorithm (str "foo")) :=
  ⟨by decide, C9_unsupported_before_io (str "foo") (by decide) (fun _ _ => []) (str "a.txt") []⟩

/-! ### Lemmas about stripping and comment lines (for C10) -/

theorem dropWhile_append_all {p : Char → Bool} (l₁ l₂ : Str)
    (h : ∀ c ∈ l₁, p c = true) :
    List.dropWhile p (l₁ ++ l₂) = List.dropWhile p l₂ := by
  induction l₁ with
  | nil => rfl
  | cons c l ih =>
    have hc : p c = true := h c (List.mem_cons_self c l)
    simpa [List.dropWhile_cons, hc] using ih (fun x hx => h x (List.mem_cons_of_mem c hx))

theorem dropWhile_append_last {p : Char → Bool} {a : Char} (ha : p a = false) :
    ∀ m : Str, ∃ m', List.dropWhile p (m ++ [a]) = m' ++ [a] := by
  intro m
  induction m with
  | nil => exact ⟨[], by simp [List.dropWhile_cons, ha]⟩
  | cons c m ih =>
    by_cases hc : p c = true
    · obtain ⟨m', hm'⟩ := ih
      exact ⟨m', by simpa [List.dropWhile_cons, hc] using hm'⟩
    · exact ⟨c :: m, by simp [List.dropWhile_cons, hc]⟩

theorem pyStripRight_hash_head (l : Str) :
    ∃ t, pyStripRight ('#' :: l) = '#' :: t := by
  obtain ⟨m', hm'⟩ := @dropWhile_append_last isPySpace '#' (by decide) l.reverse
  refine ⟨m'.reverse, ?_⟩
  simp [pyStripRight, hm']

theorem pyStrip_hash (l : Str) : startsWithHash (pyStrip ('#' :: l)) = true := by
  have hdrop : List.dropWhile isPySpace ('#' :: l) = '#' :: l := by
    simp [List.dropWhile_cons, show isPySpace '#' = false from rfl]
  obtain ⟨t, ht⟩ := pyStripRight_hash_head l
  simp [pyStrip, hdrop, ht, startsWithHash]

theorem parseChecksumLine_of_comment {line : Str}
    (h : startsWithHash (pyStrip line) = true) :
    parseChecksumLine line = none := by
  simp [parseChecksumLine, h]

theorem parseChecksumLine_of_blank {line : Str} (h : pyStrip line = []) :
    parseChecksumLine line = none := by
  simp [parseChecksumLine, h, startsWithHash, pyPartition, pyPartitionAux]

/-- C10: `_read_checksum_file` strips each line before parsing: a line of
nothing but whitespace yields no entry, and prefixing a comment line's
`#` with whitespace still skips it as a comment. -/
theorem C10_strip_before_parse (ws rest : Str)
    (h : ∀ c ∈ ws, isPySpace c = true) :
    parseChecksumLine ws = none ∧ parseChecksumLine (ws ++ '#' :: rest) = none := by
  constructor
  · apply parseChecksumLine_of_blank
    have h1 : List.dropWhile isPySpace ws = [] := by
      simpa [List.dropWhile_eq_nil_iff] using h
    have h2 : List.dropWhile isPySpace (ws ++ []) = List.dropWhile isPySpace [] :=
      dropWhile_append_all ws [] h
    simp [pyStrip, h1, pyStripRight]
  · apply parseChecksumLine_of_comment
    have h1 : List.dropWhile isPySpace (ws ++ '#' :: rest) =
        List.dropWhile isPySpace ('#' :: rest) := dropWhile_append_all ws _ h
    have h2 : List.dropWhile isPySpace ('#' :: rest) = '#' :: rest := by
      simp [List.dropWhile_cons, show isPySpace '#' = false from rfl]
    obtain ⟨t, ht⟩ := pyStripRight_hash_head rest
    simp [pyStrip, h1, h2, ht, startsWithHash]

/-- C10 witness: a line of two spaces yields no entry, and `"  # c"` is
skipped as a comment. -/
theorem C10_strip_before_parse_witness :
    parseChecksumLine [' ', ' '] = none ∧
    parseChecksumLine ([' ', ' '] ++ '#' :: str " c") = none :=
  C10_strip_before_parse [' ', ' '] (str " c") (by decide)

/-! ### Lemmas about line splitting and the manifest codec (for C3) -/

theorem splitLines_cons (c : Char) (rest : Str) (h1 : ¬c = '\n') (h2 : ¬c = '\r') :
    splitLines (c :: rest) =
      match splitLines rest with
      | l :: ls => (c :: l) :: ls
      | [] => [c] :: [] := by
  rw [splitLines.eq_def]
  simp [h1, h2]

theorem splitLines_append (a b : Str) (h : ∀ c ∈ a, ¬c = '\n' ∧ ¬c = '\r') :
    splitLines (a ++ '\n' :: b) = a :: splitLines b := by
  induction a with
  | nil => rfl
  | cons c a ih =>
    obtain ⟨h1, h2⟩ := h c (List.mem_cons_self c a)
    rw [List.cons_append, splitLines_cons c _ h1 h2,
      ih (fun x hx => h x (List.mem_cons_of_mem c hx))]

theorem not_space_ne_newline {c : Char} (h : isPySpace c = false) :
    ¬c = '\n' ∧ ¬c = '\r' := by
  constructor <;> intro he <;> subst he <;> exact absurd h (by decide)

theorem isHexDigit_not_space {c : Char} (h : isHexDigit c = true) :
    isPySpace c = false := by
  rw [Bool.eq_false_iff]
  intro hs
  simp only [isHexDigit, Bool.or_eq_true, Bool.and_eq_true, decide_eq_true_eq] at h
  simp only [isPySpace, Bool.or_eq_true, Bool.and_eq_true, decide_eq_true_eq] at hs
  omega

theorem isHexDigit_ne_space {c : Char} (h : isHexDigit c = true) : ¬c = ' ' := by
  intro he; subst he; exact absurd h (by decide)

theorem isHexDigit_ne_sharp {c : Char} (h : isHexDigit c = true) : ¬c = '#' := by
  intro he; subst he; exact absurd h (by decide)

theorem pyStripRight_concat (m : Str) (a : Char) (h : isPySpace a = false) :
    pyStripRight (m ++ [a]) = m ++ [a] := by
  simp [pyStripRight, List.dropWhile_cons, h]

theorem pyStrip_checksum_line (d p : Str) (hd : d ≠ [])
    (hdns : ∀ c ∈ d, isPySpace c = false) (hp : p ≠ [])
    (hpns : ∀ c ∈ p, isPySpace c = false) :
    pyStrip (d ++ ' ' :: '*' :: p) = d ++ ' ' :: '*' :: p := by
  obtain ⟨c₀, d', rfl⟩ := List.exists_cons_of_ne_nil hd
  have h₀ : isPySpace c₀ = false := hdns _ (List.mem_cons_self _ _)
  obtain ⟨q, a, rfl⟩ : ∃ q a, p = q ++ [a] :=
    ⟨p.dropLast, p.getLast hp, (List.dropLast_append_getLast hp).symm⟩
  have ha : isPySpace a = false := hpns _ (by simp)
  have hdl : List.dropWhile isPySpace ((c₀ :: d') ++ ' ' :: '*' :: (q ++ [a]))
      = (c₀ :: d') ++ ' ' :: '*' :: (q ++ [a]) := by
    simp [List.dropWhile_cons, h₀]
  have hsh : (c₀ :: d') ++ ' ' :: '*' :: (q ++ [a])
      = ((c₀ :: d') ++ ' ' :: '*' :: q) ++ [a] := by simp
  rw [pyStrip, hdl, hsh, pyStripRight_concat _ _ ha]

theorem pyPartitionAux_boundary (d p : Str) (hd : ∀ c ∈ d, ¬c = ' ') :
    pyPartitionAux [' ', '*'] (d ++ ' ' :: '*' :: p) = some (d, p) := by
  induction d with
  | nil => simp [pyPartitionAux, List.isPrefixOf]
  | cons c d ih =>
    have hc : ¬c = ' ' := hd c (List.mem_cons_self c d)
    have hih := ih (fun x hx => hd x (List.mem_cons_of_mem c hx))
    simp [pyPartitionAux, List.isPrefixOf, hc, hih]
    intro h'
    exact absurd h'.symm hc

theorem parseChecksumLine_entry (p d : Str) (hp : p ≠ [])
    (hpns : ∀ c ∈ p, isPySpace c = false) (hd : d ≠ [])
    (hdc : ∀ c ∈ d, isHexDigit c = true) :
    parseChecksumLine (checksumLine (p, d)) = some (p, d) := by
  have hdns : ∀ c ∈ d, isPySpace c = false :=
    fun c hc => isHexDigit_not_space (hdc c hc)
  have hstrip := pyStrip_checksum_line d p hd hdns hp hpns
  have hsw : startsWithHash (d ++ ' ' :: '*' :: p) = false := by
    obtain ⟨c₀, d', rfl⟩ := List.exists_cons_of_ne_nil hd
    have hc₀ : ¬c₀ = '#' := isHexDigit_ne_sharp (hdc _ (List.mem_cons_self _ _))
    simp [startsWithHash, hc₀]
  have haux := pyPartitionAux_boundary d p (fun c hc => isHexDigit_ne_space (hdc c hc))
  simp [parseChecksumLine, checksumLine, hstrip, hsw, pyPartition, haux, hd, hp]

theorem checksumLine_no_newline (p d : Str)
    (hpns : ∀ c ∈ p, isPySpace c = false)
    (hdc : ∀ c ∈ d, isHexDigit c = true) :
    ∀ c ∈ checksumLine (p, d), ¬c = '\n' ∧ ¬c = '\r' := by
  intro c hc
  rcases List.mem_append.mp hc with h | h
  · exact not_space_ne_newline (isHexDigit_not_space (hdc c h))
  · rcases List.mem_cons.mp h with rfl | h
    · exact ⟨by decide, by decide⟩
    · rcases List.mem_cons.mp h with rfl | h
      · exact ⟨by decide, by decide⟩
      · exact not_space_ne_newline (hpns c h)

theorem splitLines_manifest_body (entries : List (Str × Str))
    (h : ∀ e ∈ entries, ∀ c ∈ checksumLine e, ¬c = '\n' ∧ ¬c = '\r') :
    splitLines (concatMapStr (fun e => checksumLine e ++ ['\n']) entries)
      = entries.map checksumLine ++ [[]] := by
  induction entries with
  | nil => rfl
  | cons e rest ih =>
    have hshape : concatMapStr (fun e => checksumLine e ++ ['\n']) (e :: rest)
        = checksumLine e ++ '\n' :: concatMapStr (fun e => checksumLine e ++ ['\n']) rest := by
      simp [concatMapStr]
    rw [hshape, splitLines_append _ _ (h e (List.mem_cons_self _ _)),
      ih (fun x hx => h x (List.mem_cons_of_mem _ hx))]
    simp

theorem read_foldl (entries acc : List (Str × Str))
    (h : ∀ e ∈ entries, parseChecksumLine (checksumLine e) = some e) :
    List.foldl (fun acc line =>
      match parseChecksumLine line with
      | some e => acc ++ [e]
      | none => acc) acc (entries.map checksumLine)
    = acc ++ entries := by
  induction entries generalizing acc with
  | nil => simp
  | cons e rest ih =>
    simp only [List.map_cons, List.foldl_cons, h e (List.mem_cons_self _ _)]
    rw [ih _ (fun x hx => h x (List.mem_cons_of_mem _ hx))]
    simp

/-- C3 counterexample: the claim's conditions allow a path ending in a tab
(`"a\t"` is non-empty and contains neither a space nor `*`, and `"ab"` is
a non-empty hex digest), but `_read_checksum_file` strips each line, so
the trailing tab is lost and the decoded sequence differs from the
encoded one. -/
theorem C3_counterexample :
    (str "a\t" ≠ [] ∧ (∀ c ∈ str "a\t", ¬c = ' ' ∧ ¬c = '*') ∧
      str "ab" ≠ [] ∧ (∀ c ∈ str "ab", isHexDigit c = true)) ∧
    readChecksumContent
        (checksumFileContent (str "2024-01-01 00:00:00") [(str "a\t", str "ab")])
      ≠ [(str "a\t", str "ab")] := by
  constructor
  · exact ⟨by decide, by decide, by decide, by decide⟩
  · decide

/-- C3 amended: writing an ordered sequence of `(path, digest)` entries
with `_write_checksum_file` and parsing the result with
`_read_checksum_file` returns the same sequence in the same order,
provided each path is non-empty and contains no character that Python's
`str.strip()` removes (no space — the original claim — and also no other
`str.isspace()` character: tab, newline, carriage return, vertical tab,
form feed, U+001C-U+001F, NEL, NBSP, and the Unicode space and line/
paragraph separators) and no `*`, and each digest is a non-empty hex
string.  The timestamp contains no newline (as
`time.strftime("%Y-%m-%d %H:%M:%S")` never does). -/
theorem C3_roundtrip (ts : Str) (entries : List (Str × Str))
    (hts : ∀ c ∈ ts, ¬c = '\n' ∧ ¬c = '\r')
    (hgood : ∀ e ∈ entries, e.1 ≠ [] ∧
      (∀ c ∈ e.1, isPySpace c = false ∧ ¬c = '*') ∧
      e.2 ≠ [] ∧ (∀ c ∈ e.2, isHexDigit c = true)) :
    readChecksumContent (checksumFileContent ts entries) = entries := by
  have hhp : ∀ c ∈ headerPrefix, ¬c = '\n' ∧ ¬c = '\r' := by decide
  have hhead : ∀ c ∈ headerPrefix ++ ts, ¬c = '\n' ∧ ¬c = '\r' := by
    intro c hc
    rcases List.mem_append.mp hc with h | h
    · exact hhp c h
    · exact hts c h
  have hlines : ∀ e ∈ entries, ∀ c ∈ checksumLine e, ¬c = '\n' ∧ ¬c = '\r' := by
    intro e he
    obtain ⟨p, d⟩ := e
    obtain ⟨_, hpc, _, hdc⟩ := hgood (p, d) he
    exact checksumLine_no_newline p d (fun c hc => (hpc c hc).1) hdc
  have hcontent : checksumFileContent ts entries
      = (headerPrefix ++ ts) ++ '\n' ::
          concatMapStr (fun e => checksumLine e ++ ['\n']) entries := by
    simp [checksumFileContent]
  have hsplit : splitLines (checksumFileContent ts entries)
      = (headerPrefix ++ ts) :: (entries.map checksumLine ++ [[]]) := by
    rw [hcontent, splitLines_append _ _ hhead, splitLines_manifest_body entries hlines]
  have hfl : pyFileLines (checksumFileContent ts entries)
      = (headerPrefix ++ ts) :: entries.map checksumLine := by
    rw [pyFileLines, hsplit]
    have hsh : (headerPrefix ++ ts) :: (entries.map checksumLine ++ [[]])
        = ((headerPrefix ++ ts) :: entries.map checksumLine) ++ [[]] := by simp
    rw [hsh, List.getLast?_concat, List.dropLast_concat]
  have hheader : parseChecksumLine (headerPrefix ++ ts) = none := by
    have hform : headerPrefix ++ ts = '#' :: (str " Generated on " ++ ts) := rfl
    rw [hform]
    exact parseChecksumLine_of_comment (pyStrip_hash _)
  have hpl : ∀ e ∈ entries, parseChecksumLine (checksumLine e) = some e := by
    intro e he
    obtain ⟨p, d⟩ := e
    obtain ⟨hp, hpc, hd, hdc⟩ := hgood (p, d) he
    exact parseChecksumLine_entry p d hp (fun c hc => (hpc c hc).1) hd hdc
  rw [readChecksumContent, hfl]
  simp only [List.foldl_cons, hheader]
  simpa using read_foldl entries [] hpl

/-- C3 witness: a concrete one-entry round trip through the manifest
codec. -/
theorem C3_roundtrip_witness :
    readChecksumContent
        (checksumFileContent (str "2024-01-01 00:00:00")
          [(str "a.txt", str "deadbeef")])
      = [(str "a.txt", str "deadbeef")] :=
  C3_roundtrip (str "2024-01-01 00:00:00") [(str "a.txt", str "deadbeef")]
    (by decide) (by decide)

/-! ### Lemmas about the filesystem operations (for C7) -/

theorem fsLookup_append_of_none {l₁ : Fs} (l₂ : Fs) {q : Str}
    (h : fsLookup l₁ q = none) : fsLookup (l₁ ++ l₂) q = fsLookup l₂ q := by
  induction l₁ with
  | nil => rfl
  | cons e l ih =>
    obtain ⟨p, c⟩ := e
    by_cases hp : p = q
    · simp [fsLookup, hp] at h
    · simp only [fsLookup, if_neg hp] at h
      simpa [fsLookup, hp] using ih h

theorem fsLookup_append_of_some {l₁ : Fs} (l₂ : Fs) {q c : Str}
    (h : fsLookup l₁ q = some c) : fsLookup (l₁ ++ l₂) q = some c := by
  induction l₁ with
  | nil => simp [fsLookup] at h
  | cons e l ih =>
    obtain ⟨p, c'⟩ := e
    by_cases hp : p = q
    · simp only [fsLookup, if_pos hp] at h
      simpa [fsLookup, hp] using h
    · simp only [fsLookup, if_neg hp] at h
      simpa [fsLookup, hp] using ih h

theorem fsLookup_fsErase_self (fs : Fs) (q : Str) :
    fsLookup (fsErase fs q) q = none := by
  induction fs with
  | nil => rfl
  | cons e l ih =>
    obtain ⟨p, c⟩ := e
    by_cases hp : p = q <;> simp [fsErase, fsLookup, hp, ih]

theorem fsLookup_fsErase_ne (fs : Fs) {q p : Str} (h : ¬q = p) :
    fsLookup (fsErase fs p) q = fsLookup fs q := by
  induction fs with
  | nil => rfl
  | cons e l ih =>
    obtain ⟨p', c⟩ := e
    by_cases hp : p' = p
    · subst hp
      have hq : ¬p' = q := fun he => h he.symm
      simp [fsErase, fsLookup, hq, ih]
    · simp [fsErase, fsLookup, hp, ih]

theorem fsLookup_fsWrite_self (fs : Fs) (p c : Str) :
    fsLookup (fsWrite fs p c) p = some c := by
  rw [fsWrite, fsLookup_append_of_none _ (fsLookup_fsErase_self fs p)]
  simp [fsLookup]

theorem fsLookup_fsWrite_ne (fs : Fs) {q p : Str} (c : Str) (h : ¬q = p) :
    fsLookup (fsWrite fs p c) q = fsLookup fs q := by
  rw [fsWrite]
  cases hl : fsLookup (fsErase fs p) q with
  | none =>
    rw [fsLookup_append_of_none _ hl]
    have hpq : ¬p = q := fun he => h he.symm
    rw [fsLookup_fsErase_ne fs h] at hl
    simp [fsLookup, hpq, hl]
  | some c' =>
    rw [fsLookup_append_of_some _ hl]
    rw [fsLookup_fsErase_ne fs h] at hl
    exact hl.symm

theorem fsLookup_fsRename_new (fs : Fs) (old new c : Str)
    (h : fsLookup fs old = some c) :
    fsLookup (fsRename fs old new) new = some c := by
  rw [fsRename, h]
  exact fsLookup_fsWrite_self _ _ _

theorem fsLookup_fsRename_other (fs : Fs) (old new : Str) {q : Str}
    (h1 : ¬q = old) (h2 : ¬q = new) :
    fsLookup (fsRename fs old new) q = fsLookup fs q := by
  rw [fsRename]
  cases hl : fsLookup fs old with
  | none => rfl
  | some c => rw [fsLookup_fsWrite_ne _ _ h2, fsLookup_fsErase_ne _ h1]

theorem append_bak_ne (p : Str) : ¬(p ++ str ".bak") = p := by
  intro h
  have hlen := congrArg List.length h
  rw [List.length_append, show (str ".bak").length = 4 from rfl] at hlen
  omega

theorem append_bak_inj {a b : Str} (h : a ++ str ".bak" = b ++ str ".bak") :
    a = b := by
  have hlen : a.length = b.length := by
    have h2 := congrArg List.length h
    rw [List.length_append, List.length_append] at h2
    omega
  exact (List.append_inj h hlen).1

theorem pathJoin_inj {dir a b : Str} (h : pathJoin dir a = pathJoin dir b) :
    a = b := by
  simpa [pathJoin] using h

theorem pathJoin_bak (dir a : Str) :
    pathJoin dir a ++ str ".bak" = pathJoin dir (a ++ str ".bak") := by
  simp [pathJoin]

theorem writeHashinfoStep_preserves (gen : HashGenerator) (ts dir : Str)
    (info : List (Str × Str)) (fs : Fs) (file : Str) {q : Str}
    (h1 : ¬q = pathJoin dir file)
    (h2 : ¬q = pathJoin dir file ++ str ".bak") :
    fsLookup (writeHashinfoStep gen ts dir info fs file) q = fsLookup fs q := by
  simp only [writeHashinfoStep]
  rw [fsLookup_fsWrite_ne _ _ h1]
  by_cases hcond : ((fsLookup fs (pathJoin dir file)).isSome && gen.backup) = true
  · rw [if_pos hcond]
    exact fsLookup_fsRename_other _ _ _ h1 h2
  · rw [if_neg hcond]

theorem writeHashinfo_foldl_preserves (gen : HashGenerator) (ts dir : Str)
    (info : List (Str × Str)) (targets : List Str) {q : Str} :
    ∀ fs : Fs,
    (∀ t ∈ targets, ¬q = pathJoin dir t ∧ ¬q = pathJoin dir t ++ str ".bak") →
    fsLookup (List.foldl (writeHashinfoStep gen ts dir info) fs targets) q
      = fsLookup fs q := by
  induction targets with
  | nil => intro fs _; rfl
  | cons t₀ rest ih =>
    intro fs h
    rw [List.foldl_cons, ih _ (fun t ht => h t (List.mem_cons_of_mem _ ht))]
    obtain ⟨h1, h2⟩ := h t₀ (List.mem_cons_self _ _)
    exact writeHashinfoStep_preserves gen ts dir info fs t₀ h1 h2

theorem writeHashinfoStep_backup (gen : HashGenerator) (ts dir : Str)
    (info : List (Str × Str)) (fs : Fs) (t c : Str)
    (hb : gen.backup = true) (hc : fsLookup fs (pathJoin dir t) = some c) :
    fsLookup (writeHashinfoStep gen ts dir info fs t)
        (pathJoin dir t ++ str ".bak") = some c ∧
    fsLookup (writeHashinfoStep gen ts dir info fs t) (pathJoin dir t)
      = some (checksumFileContent ts info) := by
  simp only [writeHashinfoStep]
  have hcond : ((fsLookup fs (pathJoin dir t)).isSome && gen.backup) = true := by
    rw [hc, hb]; rfl
  rw [if_pos hcond]
  constructor
  · rw [fsLookup_fsWrite_ne _ _ (append_bak_ne _)]
    exact fsLookup_fsRename_new fs _ _ c hc
  · exact fsLookup_fsWrite_self _ _ _

theorem writeHashinfo_foldl_backup (gen : HashGenerator) (ts dir : Str)
    (info : List (Str × Str)) (targets : List Str) (t c : Str)
    (hb : gen.backup = true) :
    ∀ fs : Fs, t ∈ targets →
    targets.Pairwise (fun a b => ¬a = b) →
    (∀ a ∈ targets, ∀ b ∈ targets, ¬(a ++ str ".bak") = b) →
    fsLookup fs (pathJoin dir t) = some c →
    fsLookup (List.foldl (writeHashinfoStep gen ts dir info) fs targets)
        (pathJoin dir t ++ str ".bak") = some c ∧
    fsLookup (List.foldl (writeHashinfoStep gen ts dir info) fs targets)
        (pathJoin dir t) = some (checksumFileContent ts info) := by
  induction targets with
  | nil => intro fs hmem; exact absurd hmem (List.not_mem_nil t)
  | cons t₀ rest ih =>
    intro fs hmem hdist hnb hc
    rw [List.foldl_cons]
    rcases List.mem_cons.mp hmem with rfl | hmem'
    · -- the head target is `t` itself: back it up, then the remaining
      -- targets touch neither `t` nor `t.bak`
      obtain ⟨hbak, hnew⟩ := writeHashinfoStep_backup gen ts dir info fs t c hb hc
      have hrest : ∀ t' ∈ rest,
          (¬pathJoin dir t = pathJoin dir t' ∧
            ¬pathJoin dir t = pathJoin dir t' ++ str ".bak") ∧
          (¬pathJoin dir t ++ str ".bak" = pathJoin dir t' ∧
            ¬pathJoin dir t ++ str ".bak" = pathJoin dir t' ++ str ".bak") := by
        intro t' ht'
        have hne : ¬t = t' := List.rel_of_pairwise_cons hdist ht'
        refine ⟨⟨fun he => hne (pathJoin_inj he), fun he => ?_⟩,
          ⟨fun he => ?_, fun he => ?_⟩⟩
        · rw [pathJoin_bak] at he
          exact hnb t' (List.mem_cons_of_mem _ ht') t (List.mem_cons_self _ _)
            (pathJoin_inj he).symm
        · rw [pathJoin_bak] at he
          exact hnb t (List.mem_cons_self _ _) t' (List.mem_cons_of_mem _ ht')
            (pathJoin_inj he)
        · rw [pathJoin_bak, pathJoin_bak] at he
          exact hne (append_bak_inj (pathJoin_inj he))
      constructor
      · rw [writeHashinfo_foldl_preserves gen ts dir info rest _
          (fun t' ht' => (hrest t' ht').2)]
        exact hbak
      · rw [writeHashinfo_foldl_preserves gen ts dir info rest _
          (fun t' ht' => (hrest t' ht').1)]
        exact hnew
    · -- the head target is a different file: it touches neither `t` nor
      -- `t.bak`, and the induction hypothesis handles the rest
      have hne : ¬t₀ = t := List.rel_of_pairwise_cons hdist hmem'
      have h1 : ¬pathJoin dir t = pathJoin dir t₀ :=
        fun he => hne (pathJoin_inj he).symm
      have h2 : ¬pathJoin dir t = pathJoin dir t₀ ++ str ".bak" := by
        intro he
        rw [pathJoin_bak] at he
        exact hnb t₀ (List.mem_cons_self _ _) t hmem (pathJoin_inj he).symm
      have hc' : fsLookup (writeHashinfoStep gen ts dir info fs t₀)
          (pathJoin dir t) = some c := by
        rw [writeHashinfoStep_preserves gen ts dir info fs t₀ h1 h2]
        exact hc
      exact ih _ hmem' (List.Pairwise.of_cons hdist)
        (fun a ha b hb' => hnb a (List.mem_cons_of_mem _ ha) b (List.mem_cons_of_mem _ hb'))
        hc'

/-- C7 counterexample: the claim quantifies over every generation run with
backup enabled in which a write target exists.  When the overwrite globs
select both a file and that file's own `.bak` name (here `ck` and
`ck.bak`, both matched by the glob `c*`), processing `ck` renames it over
the old `ck.bak`, and processing the target `ck.bak` then overwrites it
with the new manifest — so afterwards `<target>.bak` for the target `ck`
does not hold `ck`'s pre-overwrite content. -/
theorem C7_counterexample :
    (HashGenerator.init (str "md5") false false none [str "c*"] (some true)
        [] []).backup = true ∧
    str "ck" ∈ filesToWrite
      (HashGenerator.init (str "md5") false false none [str "c*"] (some true) [] [])
      [(str "d/ck", str "old1"), (str "d/ck.bak", str "old2")] (str "d") ∧
    fsLookup [(str "d/ck", str "old1"), (str "d/ck.bak", str "old2")]
      (pathJoin (str "d") (str "ck")) = some (str "old1") ∧
    fsLookup
      (writeHashinfo
        (HashGenerator.init (str "md5") false false none [str "c*"] (some true) [] [])
        (str "T") [(str "d/ck", str "old1"), (str "d/ck.bak", str "old2")]
        (str "d") [(str "a", str "ff")])
      (pathJoin (str "d") (str "ck") ++ str ".bak") ≠ some (str "old1") := by
  refine ⟨by decide, by decide, by decide, by decide⟩

/-- C7 amended: in a generation run with backup enabled, every manifest
write target that already exists is renamed to `<target>.bak` before the
new manifest is written, so that afterwards `<target>.bak` holds the
pre-overwrite content and `<target>` holds the newly serialized manifest —
provided the write targets are pairwise distinct and no write target is
the `.bak` name of another write target (without this proviso the rename
of one target can destroy or overwrite another target's backup, as the
counterexample shows; the specification itself notes that "last backup
silently replaces any prior `.bak`").  With the default configuration
(no overwrite globs) there is a single target, so the proviso holds. -/
theorem C7_backup_rename (gen : HashGenerator) (ts dir : Str) (fs : Fs)
    (info : List (Str × Str)) (t c : Str)
    (hb : gen.backup = true)
    (hmem : t ∈ filesToWrite gen fs dir)
    (hdist : (filesToWrite gen fs dir).Pairwise (fun a b => ¬a = b))
    (hnb : ∀ a ∈ filesToWrite gen fs dir, ∀ b ∈ filesToWrite gen fs dir,
      ¬(a ++ str ".bak") = b)
    (hc : fsLookup fs (pathJoin dir t) = some c) :
    fsLookup (writeHashinfo gen ts fs dir info)
        (pathJoin dir t ++ str ".bak") = some c ∧
    fsLookup (writeHashinfo gen ts fs dir info) (pathJoin dir t)
      = some (checksumFileContent ts info) :=
  writeHashinfo_foldl_backup gen ts dir info (filesToWrite gen fs dir) t c hb
    fs hmem hdist hnb hc

/-- C7 witness: a default-configured generator (no overwrite globs, single
target `checksums.md5`) with backup enabled, over a directory where the
target already exists: afterwards `checksums.md5.bak` holds the old
content and `checksums.md5` the new manifest. -/
theorem C7_backup_rename_witness :
    fsLookup
      (writeHashinfo
        (HashGenerator.init (str "md5") false false none [] (some true) [] [])
        (str "T") [(str "d/checksums.md5", str "old")] (str "d")
        [(str "a.txt", str "ff")])
      (pathJoin (str "d") (str "checksums.md5") ++ str ".bak") = some (str "old") ∧
    fsLookup
      (writeHashinfo
        (HashGenerator.init (str "md5") false false none [] (some true) [] [])
        (str "T") [(str "d/checksums.md5", str "old")] (str "d")
        [(str "a.txt", str "ff")])
      (pathJoin (str "d") (str "checksums.md5"))
      = some (checksumFileContent (str "T") [(str "a.txt", str "ff")]) :=
  C7_backup_rename
    (HashGenerator.init (str "md5") false false none [] (some true) [] [])
    (str "T") (str "d") [(str "d/checksums.md5", str "old")]
    [(str "a.txt", str "ff")] (str "checksums.md5") (str "old")
    (by decide) (by decide) (by decide) (by decide) (by decide)
